import Mathlib

/-!
# Verification of the darkroom print-compositing engine

Shallow embedding, over `ℚ`, of the Digital Darkroom Simulator's core:
the per-pixel optical density model (CPU scalar loop in `script.js`,
fragment-shader pipeline in the GPU engine), the mask/brush compositing,
the histogram builders, and the binary `.ddr` project serialization.

Transcendental functions of the source (`Math.exp`, `Math.log`,
`Math.pow(10, ·)`) are passed as explicit function parameters; the
theorems assume of them only the analytic facts the source relies on
(positivity, monotonicity), and witnesses instantiate them with concrete
computable functions.
-/

namespace Darkroom


/-- The epsilon the source uses to guard logarithms (`1e-6`). -/
def eps : ℚ := 1 / 1000000

/-! ## D–logE curve (`densityFromLogE`, script.js:45-49)

`D = Dmin + (Dmax - Dmin) / (1 + exp(-k * (logE - E0)))`, clamped into
`[Dmin, Dmax]`.  `E` is the exponential function parameter. -/

/-- Embedding of `densityFromLogE(logE, Dmin, Dmax, k, E0)` (script.js:45-49,
with `E` standing for `Math.exp`). -/
def densityFromLogE (E : ℚ → ℚ) (logE Dmin Dmax k E0 : ℚ) : ℚ :=
  let span := Dmax - Dmin
  let D := Dmin + span / (1 + E (-(k * (logE - E0))))
  max Dmin (min D Dmax)

/-! ## CPU per-pixel density accumulation (script.js `processImage`, 1549-1594)

Per pixel the loop accumulates each exposure's excess density over `Dmin`,
exiting early once the running sum reaches `Dmax - Dmin`. -/

/-- The inner accumulation loop of `processImage` (script.js:1553-1576):
starting from `acc`, add each positive excess, and return `spanD` as soon
as the running sum reaches `spanD` (early exit). -/
def cpuAccumGo (spanD : ℚ) : ℚ → List ℚ → ℚ
  | acc, [] => acc
  | acc, d :: rest =>
    if 0 < d then
      let s := acc + d
      if spanD ≤ s then spanD else cpuAccumGo spanD s rest
    else cpuAccumGo spanD acc rest

/-- The accumulated (early-exit-clamped) excess density `Dsum` for a list of
per-exposure excesses. -/
def cpuAccum (spanD : ℚ) (ds : List ℚ) : ℚ :=
  cpuAccumGo spanD 0 ds

/-- `Dfinal` from the accumulated excess sum (script.js:1578):
`Dfinal = (Dsum >= spanD) ? Dmax : Dmin + Dsum`. -/
def cpuDfinalFromSum (Dmin Dmax Dsum : ℚ) : ℚ :=
  if Dmax - Dmin ≤ Dsum then Dmax else Dmin + Dsum

/-! ## The per-pixel compositor: CPU scalar loop and GPU fragment shader

The CPU path (`processImage`, script.js:1490-1628) and the GPU path
(`GPUEngine.render` plus the fragment shader of `initProgram`) are embedded
as pure per-pixel functions of the paper parameters, the per-exposure data
and the pixel's transmittance.  `sig` parametrizes the sigmoid LUT lookup
and `lg` parametrizes `log10`; both paths of the source share one LUT. -/

/-- Per-exposure per-pixel input to the compositor: the exposure time in
seconds, the grade's contrast slope `k`, the precomputed midtone `E0`
(in log10 space), and the exposure's mask value at this pixel
(`none` = no mask). -/
structure RExp where
  time : ℚ
  k : ℚ
  E0 : ℚ
  mask : Option ℚ
  deriving DecidableEq

/-- CPU transmittance guard (script.js:870): `safeT = t > 1e-6 ? t : 1e-6`. -/
def cpuSafeTrans (t : ℚ) : ℚ :=
  if eps < t then t else eps

/-- GPU transmittance guard (fragment shader line `logTrans =
log10_(max(1e-6, trans))`): `max(1e-6, trans)`. -/
def gpuSafeTrans (t : ℚ) : ℚ :=
  max eps t

/-- CPU per-pixel mask log term (script.js:1557-1559): with `m` the mask
value at the pixel, `safeMaskMul = m > 0 ? max(1e-6, 1-m) : 1` and
`logMask = safeMaskMul === 1 ? 0 : log10(safeMaskMul)`. -/
def cpuLogMask (lg : ℚ → ℚ) (m : ℚ) : ℚ :=
  let safe := if 0 < m then max eps (1 - m) else 1
  if safe = 1 then 0 else lg safe

/-- GPU per-pixel mask log term (fragment shader lines 127-147):
`maskMul = hasMask ? 1 - a : 1`, and `logE += log10_(max(1e-6, maskMul))`
only when `maskMul < 1`. -/
def gpuLogMask (lg : ℚ → ℚ) (mask : Option ℚ) : ℚ :=
  match mask with
  | none => 0
  | some a => if 1 - a < 1 then lg (max eps (1 - a)) else 0

/-- CPU per-exposure excess density at a pixel (script.js:1554-1568):
`logE = log10(time) + logTrans + logMask`, `x = k*(logE - E0)`,
`Dexcess = (Dmax - Dmin) * sigmoid(x)`.  Note the raw `time` is logged
(script.js:1535 has no epsilon guard). -/
def cpuExcess (sig lg : ℚ → ℚ) (Dmin Dmax logT : ℚ) (e : RExp) : ℚ :=
  (Dmax - Dmin) * sig (e.k * ((lg e.time + logT + cpuLogMask lg ((e.mask.map id).getD 0)) - e.E0))

/-- GPU per-exposure excess density at a pixel (shader lines 146-154, with
`uLogT[i] = log10(max(1e-6, time))` from `GPUEngine.render`, part_000:354). -/
def gpuExcess (sig lg : ℚ → ℚ) (Dmin Dmax logT : ℚ) (e : RExp) : ℚ :=
  (Dmax - Dmin) * sig (e.k * ((lg (max eps e.time) + logT + gpuLogMask lg e.mask) - e.E0))

/-- CPU per-pixel accumulated excess (script.js:1553-1576). -/
def cpuDsum (sig lg : ℚ → ℚ) (Dmin Dmax logT : ℚ) (exps : List RExp) : ℚ :=
  cpuAccum (Dmax - Dmin) (exps.map (cpuExcess sig lg Dmin Dmax logT))

/-- CPU per-pixel final density (script.js:1578). -/
def cpuDfinal (sig lg : ℚ → ℚ) (Dmin Dmax logT : ℚ) (exps : List RExp) : ℚ :=
  cpuDfinalFromSum Dmin Dmax (cpuDsum sig lg Dmin Dmax logT exps)

/-- GPU per-pixel total density (shader lines 120-158): start at `Dmin`,
add `max(0, extra)` for each of the `uExposureCount` exposures, then clamp
with `min(totalDensity, uDmax)`. -/
def gpuTotalDensity (sig lg : ℚ → ℚ) (Dmin Dmax logT : ℚ) (exps : List RExp) : ℚ :=
  min (Dmin + (exps.map (fun e => max 0 (gpuExcess sig lg Dmin Dmax logT e))).sum) Dmax

/-! ## Tone mapping: the CPU byte path and the GPU reflectance path -/

/-- `Math.round`: round half up, `⌊q + 1/2⌋`. -/
def jsRound (q : ℚ) : ℤ :=
  ⌊q + 1/2⌋

/-- JavaScript `| 0`: truncation toward zero. -/
def jsTrunc (q : ℚ) : ℤ :=
  if 0 ≤ q then ⌊q⌋ else -⌊-q⌋

/-- An RGB multiplier triple of a paper tone zone. -/
structure Tone where
  r : ℚ
  g : ℚ
  b : ℚ
  deriving DecidableEq

/-- A paper's three-zone color response. -/
structure ColorTone where
  highlights : Tone
  midtones : Tone
  shadows : Tone
  deriving DecidableEq

/-- CPU print value (script.js:1579-1581): `frac` clamped to `[0,1]`,
`value = clamp(round(255*(1-frac)), 0, 255)`. -/
def cpuValue (Dmin Dmax Dfinal : ℚ) : ℤ :=
  let frac := max 0 (min 1 ((Dfinal - Dmin) / (Dmax - Dmin)))
  max 0 (min 255 (jsRound (255 * (1 - frac))))

/-- CPU tone-zone selection by byte thresholds (script.js:1584-1587). -/
def cpuTone (ct : ColorTone) (value : ℤ) : Tone :=
  if 192 < value then ct.highlights
  else if 64 < value then ct.midtones
  else ct.shadows

/-- CPU final pixel color (script.js:1589-1591): `(value * tone) | 0`
per channel. -/
def cpuColor (ct : ColorTone) (Dmin Dmax Dfinal : ℚ) : ℤ × ℤ × ℤ :=
  let v := cpuValue Dmin Dmax Dfinal
  let t := cpuTone ct v
  (jsTrunc ((v : ℚ) * t.r), jsTrunc ((v : ℚ) * t.g), jsTrunc ((v : ℚ) * t.b))

/-- GPU tone blending (shader lines 163-170) as a function of the
reflectance `r = 10^(-totalDensity)`: reflectance-weighted blending of the
zone multipliers, scaled by the reflectance. -/
def gpuCol (ct : ColorTone) (r : ℚ) : ℚ × ℚ × ℚ :=
  if r < 1/2 then
    let t := r * 2
    ((ct.shadows.r * (1 - t) + ct.midtones.r * t) * r,
     (ct.shadows.g * (1 - t) + ct.midtones.g * t) * r,
     (ct.shadows.b * (1 - t) + ct.midtones.b * t) * r)
  else
    let t := (r - 1/2) * 2
    ((ct.midtones.r * (1 - t) + ct.highlights.r * t) * r,
     (ct.midtones.g * (1 - t) + ct.highlights.g * t) * r,
     (ct.midtones.b * (1 - t) + ct.highlights.b * t) * r)

/-- `[0,1]` clamp. -/
def clamp01 (q : ℚ) : ℚ :=
  max 0 (min q 1)

/-- GPU final pixel color as stored in the RGBA8 canvas: each shader output
channel clamped to `[0,1]` and converted to a byte by rounding. -/
def gpuColorByte (ct : ColorTone) (r : ℚ) : ℤ × ℤ × ℤ :=
  let c := gpuCol ct r
  (jsRound (255 * clamp01 c.1), jsRound (255 * clamp01 c.2.1), jsRound (255 * clamp01 c.2.2))

/-- The Ilford Multigrade color tone table of the source, exactly. -/
def ilfordTone : ColorTone :=
  ⟨⟨97/100, 99/100, 1⟩, ⟨96/100, 98/100, 1⟩, ⟨94/100, 97/100, 1⟩⟩

/-- A sigmoid-LUT stand-in: the constant `94/199`, a value inside the open
range `(0,1)` of the logistic LUT. It makes the accumulated density land at
exactly `1`, where the shader's reflectance `10^(-1)` is the exact rational
`1/10`. -/
def sig0 : ℚ → ℚ := fun _ => 94/199

/-- A log stand-in (its value is irrelevant to the counterexample because
`sig0` is constant). -/
def lg0 : ℚ → ℚ := fun _ => 0

/-- One exposure: `time = 16 s`, grade-5 slope `k = 10` of the Ilford table,
midtone `E0 = lg0 16 = 0`, no mask. -/
def exp0 : RExp := ⟨16, 10, 0, none⟩

/-! ## C5: the 12-exposure render cap -/

/-- `GPUEngine`'s fixed exposure cap (part_000:12, `this.maxExposures = 12`). -/
def maxExposures : ℕ := 12

/-- The GPU render path per pixel: `GPUEngine.render` uploads constants for
`n = min(exposures.length, maxExposures)` exposures (part_000:344-368) and
the shader loops over exactly those (`e < uExposureCount`), so the density
is computed over `exposures.take maxExposures`. -/
def gpuRenderDensity (sig lg : ℚ → ℚ) (Dmin Dmax logT : ℚ) (exps : List RExp) : ℚ :=
  gpuTotalDensity sig lg Dmin Dmax logT (exps.take maxExposures)

/-- A step sigmoid stand-in: `0` below the midtone, `1` at or above it. -/
def sigStep : ℚ → ℚ := fun x => if x < 0 then 0 else 1

/-- An exposure that contributes zero excess under `sigStep`/`lg0`
(`x = 1·((0 + 0 + 0) - 2) = -2 < 0`). -/
def expLow : RExp := ⟨1, 1, 2, none⟩

/-- An exposure that contributes full excess under `sigStep`/`lg0`
(`x = 1·((0 + 0 + 0) - 0) = 0`). -/
def expHi : RExp := ⟨1, 1, 0, none⟩

/-! ## C4: epsilon guards before logarithms

`Math.log` returns a finite value exactly when its argument is positive
(`-Infinity` at `0`, `NaN` below); a log site is modelled as `Option`-valued,
`none` meaning no finite result. -/

/-- JavaScript `Math.log` (rescaled to log10 by the caller): finite iff the
argument is positive. -/
def jsLog10 (lg : ℚ → ℚ) (x : ℚ) : Option ℚ :=
  if 0 < x then some (lg x) else none

/-- The CPU per-exposure time log (script.js:1535): `Math.log(ex.time)` of
the raw time — no epsilon guard. -/
def cpuLogTimeOpt (lg : ℚ → ℚ) (t : ℚ) : Option ℚ :=
  jsLog10 lg t

/-- The GPU per-exposure time log (part_000:354):
`Math.log10(Math.max(1e-6, timeSec))`. -/
def gpuLogTimeOpt (lg : ℚ → ℚ) (t : ℚ) : Option ℚ :=
  jsLog10 lg (max eps t)

/-- The CPU transmittance log (script.js:870-872): `log10(safeT)` with
`safeT = t > 1e-6 ? t : 1e-6`. -/
def cpuLogTransOpt (lg : ℚ → ℚ) (t : ℚ) : Option ℚ :=
  jsLog10 lg (cpuSafeTrans t)

/-- The GPU transmittance log (shader line 118): `log10_(max(1e-6, trans))`. -/
def gpuLogTransOpt (lg : ℚ → ℚ) (t : ℚ) : Option ℚ :=
  jsLog10 lg (gpuSafeTrans t)

/-- The CPU mask-log argument (script.js:1558):
`safeMaskMul = m > 0 ? max(1e-6, 1-m) : 1`. -/
def cpuMaskLogArg (m : ℚ) : ℚ :=
  if 0 < m then max eps (1 - m) else 1

/-! ## C8: mask/brush engine

`_stamp` (script.js:607-642) paints a radial gradient with canvas alpha
compositing: `source-over` for dodge (with `globalAlpha = brushFlow`) and
`destination-out` for erase (with `globalAlpha = 1`); `clearMask` fills the
mask with `0`; `invertDodgeMask` (part_000:1804-1857) replaces every alpha
byte by `255 - alpha`; `updateMaskData` (script.js:735-766) reads the mask
back as `alpha / 255`.  The standard canvas (Porter–Duff) alpha operators
are modelled on normalized alpha in `[0,1]`. -/

/-- Canvas `source-over` on alpha: `as + ad*(1 - as)`. -/
def srcOver (as ad : ℚ) : ℚ :=
  as + ad * (1 - as)

/-- Canvas `destination-out` on alpha: `ad*(1 - as)`. -/
def destOut (as ad : ℚ) : ℚ :=
  ad * (1 - as)

/-- The stamp's radial-gradient alpha at normalized radius `u = dist/R`:
stops `(0,1)`, `(tInner,1)`, `(tMid,0.6)`, `(1,0)` with linear
interpolation (script.js:620-632). -/
def stampAlpha (tI tM u : ℚ) : ℚ :=
  if u ≤ tI then 1
  else if u ≤ tM then 1 + ((u - tI) / (tM - tI)) * (3/5 - 1)
  else 3/5 + ((u - tM) / (1 - tM)) * (0 - 3/5)

/-- `tInner` from the feather percentage (script.js:610):
`Math.max(0, Math.min(1, 1 - brushFeather/100))`. -/
def tInnerOf (feather : ℚ) : ℚ :=
  max 0 (min 1 (1 - feather / 100))

/-- `tMid` from the feather percentage (script.js:611):
`Math.max(tInner, Math.min(1, 1 - (brushFeather*0.5)/100))`. -/
def tMidOf (feather : ℚ) : ℚ :=
  max (tInnerOf feather) (min 1 (1 - feather * (1/2) / 100))

/-- A dodge stamp at one pixel: source alpha `brushFlow * gradientAlpha`
composited `source-over` onto the existing mask alpha. -/
def dodgeStampPixel (flow tI tM u ad : ℚ) : ℚ :=
  srcOver (flow * stampAlpha tI tM u) ad

/-- An erase stamp at one pixel: gradient alpha composited
`destination-out` (full strength). -/
def eraseStampPixel (tI tM u ad : ℚ) : ℚ :=
  destOut (stampAlpha tI tM u) ad

/-- `updateMaskData` readback (script.js:759): `mask[j] = alpha/255`. -/
def maskFromAlpha (a : ℕ) : ℚ :=
  (a : ℚ) / 255

/-- One per-pixel stroke operation: a dodge stamp, an erase stamp (an
interpolated stroke segment is a sequence of such stamps), a clear, or a
mask inversion. -/
inductive StrokeOp where
  | dodge (flow tI tM u : ℚ)
  | erase (tI tM u : ℚ)
  | clear
  | invert
  deriving DecidableEq

/-- `invertDodgeMask`'s per-pixel alpha inversion (part_000:1833-1835):
`data[i] = 255 - data[i]` on the alpha byte. -/
def invertAlphaByte (a : ℕ) : ℕ :=
  255 - a

/-- Applying one stroke operation to a pixel's mask alpha.  The invert of
`invertDodgeMask` maps the byte `α` to `255 - α`, i.e. the normalized
alpha `a` to `1 - a`. -/
def applyOp (ad : ℚ) : StrokeOp → ℚ
  | .dodge flow tI tM u => dodgeStampPixel flow tI tM u ad
  | .erase tI tM u => eraseStampPixel tI tM u ad
  | .clear => 0
  | .invert => 1 - ad

/-- Parameter ranges the painting code guarantees: flow is the
`brushFlow` constant in `[0,1]`, the gradient stops satisfy
`0 ≤ tInner ≤ tMid ≤ 1`, and the pixel is inside the brush circle. -/
def validOp : StrokeOp → Prop
  | .dodge flow tI tM u => 0 ≤ flow ∧ flow ≤ 1 ∧ 0 ≤ tI ∧ tI ≤ tM ∧ tM ≤ 1 ∧ 0 ≤ u ∧ u ≤ 1
  | .erase tI tM u => 0 ≤ tI ∧ tI ≤ tM ∧ tM ≤ 1 ∧ 0 ≤ u ∧ u ≤ 1
  | .clear => True
  | .invert => True

/-! ## C9: histogram builders

`generateHistogram` (script.js:1764-1794) counts every pixel's byte value
per channel into 256 bins and then normalizes each bin in place by the
maximum bin count; `_buildHistogramSampled` (part_000:2515-2531) counts
every 4th pixel in each axis and returns the raw counts.  Bins are modelled
as a function `ℕ → ℕ` built by per-pixel increments. -/

/-- One histogram increment: `hist[v]++`. -/
def bump (f : ℕ → ℕ) (v : ℕ) : ℕ → ℕ :=
  fun i => if i = v then f v + 1 else f i

/-- The counting loop over a channel's pixel values. -/
def histFold (vals : List ℕ) : ℕ → ℕ :=
  vals.foldl bump (fun _ => 0)

/-- The sampled axis indices `0, 4, 8, …` below `n`
(`for (let y = 0; y < height; y += 4)`). -/
def stepIndices (n : ℕ) : List ℕ :=
  (List.range n).filter (fun i => i % 4 = 0)

/-- The values of one channel at the sampled grid positions of a `w × h`
image given by `px`. -/
def sampledPixels (w h : ℕ) (px : ℕ → ℕ → ℕ) : List ℕ :=
  (stepIndices h).flatMap (fun y => (stepIndices w).map (fun x => px x y))

/-- `_buildHistogramSampled` for one channel. -/
def buildHistogramSampled (w h : ℕ) (px : ℕ → ℕ → ℕ) : ℕ → ℕ :=
  histFold (sampledPixels w h px)

/-- The maximum bin count over the three channels' 256 bins
(script.js:1780-1783). -/
def maxCount3 (rs gs bs : List ℕ) : ℕ :=
  ((List.range 256).map
    (fun i => max (histFold rs i) (max (histFold gs i) (histFold bs i)))).foldl max 0

/-- JavaScript division of counts: `count / maxCount` is finite unless it is
`0 / 0` (`NaN`), which only happens when `maxCount = 0`. -/
def jsDivCount (c m : ℕ) : Option ℚ :=
  if m = 0 then none else some ((c : ℚ) / m)

/-- A red-channel bin of `generateHistogram` after in-place normalization
(script.js:1786-1790). -/
def genHistNormR (rs gs bs : List ℕ) (i : ℕ) : Option ℚ :=
  jsDivCount (histFold rs i) (maxCount3 rs gs bs)

/-! ## C6 and C10: binary `.ddr` project serialization

`saveProjectData` (part_000:2619-2745) writes: magic `"DDRM"`, version
`uint32 1`, length-prefixed paper-type string, exposure count `uint32`, then
per exposure: length-prefixed id string, time as 8-byte float, grade as
4-byte int, a has-mask flag byte, and if set width/height `uint32` pairs
followed by the raw RGBA mask bytes; all multi-byte integers little-endian.
`parseBinaryProjectData` (part_000:1255-1353) reads the same layout inside
a `try`/`catch` that returns `null` on any failure.

Buffers are byte lists (`List ℕ`, values < 256).  Strings are their
`TextEncoder` byte sequences.  The IEEE-754 float64 codec of
`DataView.setFloat64`/`getFloat64` is abstracted as an 8-byte
encoder/decoder pair over a time type `T`; the round-trip theorem assumes
of it exactly what the platform guarantees (8 bytes out, decode inverts
encode). -/

/-- Mask payload: dimensions plus raw RGBA bytes (`ImageData`-backed, so
`data.length = width * height * 4`). -/
structure MaskData where
  width : ℕ
  height : ℕ
  data : List ℕ
  deriving DecidableEq

/-- One persisted exposure. -/
structure PExposure (T : Type) where
  id : List ℕ
  time : T
  grade : ℤ
  maskData : Option MaskData
  deriving DecidableEq

/-- The persisted project state: paper type and ordered exposures. -/
structure Project (T : Type) where
  paperType : List ℕ
  exposures : List (PExposure T)
  deriving DecidableEq

/-- `DataView.setUint32(…, true)`: four little-endian bytes. -/
def u32le (n : ℕ) : List ℕ :=
  [n % 256, n / 256 % 256, n / 256 ^ 2 % 256, n / 256 ^ 3 % 256]

/-- `DataView.setInt32(…, true)`: two's-complement little-endian. -/
def i32le (g : ℤ) : List ℕ :=
  u32le (g % 2 ^ 32).toNat

/-- `saveProjectData`'s per-exposure bytes (part_000:2696-2729).
`setUint8` stores its argument modulo 256. -/
def serializeExposure {T : Type} (enc : T → List ℕ) (e : PExposure T) : List ℕ :=
  u32le e.id.length ++ e.id.map (· % 256) ++ enc e.time ++ i32le e.grade ++
    (match e.maskData with
     | none => [0]
     | some m => [1] ++ u32le m.width ++ u32le m.height ++ m.data.map (· % 256))

/-- `saveProjectData`'s full layout (part_000:2674-2729). -/
def serializeProject {T : Type} (enc : T → List ℕ) (p : Project T) : List ℕ :=
  [68, 68, 82, 77] ++ u32le 1 ++
    u32le p.paperType.length ++ p.paperType.map (· % 256) ++
    u32le p.exposures.length ++
    (p.exposures.map (serializeExposure enc)).flatten

/-- `getUint8`: read one byte (out of bounds throws, hence `none`). -/
def readU8 : List ℕ → Option (ℕ × List ℕ)
  | [] => none
  | b :: r => some (b, r)

/-- Read `n` raw bytes (a `Uint8Array` view past the end throws). -/
def readBytes : ℕ → List ℕ → Option (List ℕ × List ℕ)
  | 0, r => some ([], r)
  | _ + 1, [] => none
  | n + 1, b :: r =>
    match readBytes n r with
    | none => none
    | some (bs, rest) => some (b :: bs, rest)

/-- `getUint32(…, true)`. -/
def readU32 : List ℕ → Option (ℕ × List ℕ)
  | b0 :: b1 :: b2 :: b3 :: r => some (b0 + 256 * b1 + 256 ^ 2 * b2 + 256 ^ 3 * b3, r)
  | _ => none

/-- `getInt32(…, true)`: the unsigned value reinterpreted in two's
complement. -/
def readI32 (l : List ℕ) : Option (ℤ × List ℕ) :=
  match readU32 l with
  | none => none
  | some (v, r) => some (if v < 2 ^ 31 then (v : ℤ) else (v : ℤ) - 2 ^ 32, r)

/-- The `"DDRM"` magic check (part_000:1261-1267): four `getUint8` reads,
`null` on any mismatch. -/
def readMagic : List ℕ → Option (List ℕ)
  | 68 :: 68 :: 82 :: 77 :: r => some r
  | _ => none

/-- `parseBinaryProjectData`'s per-exposure reads (part_000:1294-1343). -/
def parseExposure {T : Type} (dec : List ℕ → T) (l : List ℕ) :
    Option (PExposure T × List ℕ) :=
  match readU32 l with
  | none => none
  | some (idLen, r) =>
    match readBytes idLen r with
    | none => none
    | some (idBytes, r) =>
      match readBytes 8 r with
      | none => none
      | some (timeBytes, r) =>
        match readI32 r with
        | none => none
        | some (grade, r) =>
          match readU8 r with
          | none => none
          | some (flag, r) =>
            if flag = 1 then
              match readU32 r with
              | none => none
              | some (w, r) =>
                match readU32 r with
                | none => none
                | some (hgt, r) =>
                  match readBytes (w * hgt * 4) r with
                  | none => none
                  | some (dat, r) =>
                    some (⟨idBytes, dec timeBytes, grade, some ⟨w, hgt, dat⟩⟩, r)
            else
              some (⟨idBytes, dec timeBytes, grade, none⟩, r)

/-- The exposure-reading loop (`for i in 0..exposureCount-1`). -/
def parseExposures {T : Type} (dec : List ℕ → T) :
    ℕ → List ℕ → Option (List (PExposure T) × List ℕ)
  | 0, r => some ([], r)
  | n + 1, r =>
    match parseExposure dec r with
    | none => none
    | some (e, r) =>
      match parseExposures dec n r with
      | none => none
      | some (es, r) => some (e :: es, r)

/-- `parseBinaryProjectData` (part_000:1255-1353): `none` models every
path on which the source returns `null` (wrong magic, wrong version, or a
caught out-of-bounds read). -/
def parseBinaryProjectData {T : Type} (dec : List ℕ → T) (bs : List ℕ) :
    Option (Project T) :=
  match readMagic bs with
  | none => none
  | some r =>
    match readU32 r with
    | none => none
    | some (version, r) =>
      if version = 1 then
        match readU32 r with
        | none => none
        | some (ptLen, r) =>
          match readBytes ptLen r with
          | none => none
          | some (pt, r) =>
            match readU32 r with
            | none => none
            | some (count, r) =>
              match parseExposures dec count r with
              | none => none
              | some (exps, _) => some ⟨pt, exps⟩
      else
        none

/-- The bounds the source guarantees for one exposure: string/buffer sizes
fit in `uint32`, the grade fits in `int32`, mask bytes come from an
`ImageData` (so `data.length = width*height*4` and bytes are < 256). -/
def WFExposure {T : Type} (e : PExposure T) : Prop :=
  e.id.length < 2 ^ 32 ∧ (∀ b ∈ e.id, b < 256) ∧
  -(2 ^ 31) ≤ e.grade ∧ e.grade < 2 ^ 31 ∧
  (∀ m, e.maskData = some m →
    m.width < 2 ^ 32 ∧ m.height < 2 ^ 32 ∧
    m.data.length = m.width * m.height * 4 ∧ ∀ b ∈ m.data, b < 256)

/-- The bounds the source guarantees for a project. -/
def WFProject {T : Type} (p : Project T) : Prop :=
  p.paperType.length < 2 ^ 32 ∧ (∀ b ∈ p.paperType, b < 256) ∧
  p.exposures.length < 2 ^ 32 ∧ ∀ e ∈ p.exposures, WFExposure e

/-- An 8-byte codec for a one-byte time type, used to witness the
round-trip theorem. -/
def timeEnc8 (t : Fin 256) : List ℕ :=
  [t.1, 0, 0, 0, 0, 0, 0, 0]

/-- Decoder matching `timeEnc8`. -/
def timeDec8 (l : List ℕ) : Fin 256 :=
  match l with
  | b :: _ => ⟨b % 256, Nat.mod_lt b (by norm_num)⟩
  | [] => 0

/-- A concrete two-exposure project (one masked, one not, negative grade
exercised). -/
def sampleProject : Project (Fin 256) :=
  ⟨[105, 109],
   [⟨[97], ⟨16, by norm_num⟩, 5, none⟩,
    ⟨[98], ⟨8, by norm_num⟩, -1, some ⟨1, 1, [1, 2, 3, 4]⟩⟩]⟩

/-- Normal form of the early-exit loop: it computes the sum of the positive
parts, clamped at `spanD`. -/
theorem cpuAccumGo_eq_min (spanD : ℚ) (ds : List ℚ) :
    ∀ acc, 0 ≤ acc → acc ≤ spanD →
      cpuAccumGo spanD acc ds = min spanD (acc + (ds.map (fun d => max 0 d)).sum) := by
  induction ds with
  | nil =>
    intro acc _ hacc
    simp [cpuAccumGo, min_eq_right, hacc]
  | cons d rest ih =>
    intro acc hacc0 haccs
    simp only [cpuAccumGo, List.map_cons, List.sum_cons]
    by_cases hd : 0 < d
    · simp only [if_pos hd]
      by_cases hs : spanD ≤ acc + d
      · rw [if_pos hs]
        have hsum : 0 ≤ (rest.map (fun d => max 0 d)).sum :=
          List.sum_nonneg (by intro x hx; simp only [List.mem_map] at hx
                              obtain ⟨y, _, rfl⟩ := hx; exact le_max_left 0 y)
        have : max 0 d = d := max_eq_right hd.le
        rw [min_eq_left (by linarith)]
      · rw [if_neg hs]
        push_neg at hs
        rw [ih (acc + d) (by linarith) hs.le]
        have : max 0 d = d := max_eq_right hd.le
        rw [this]; ring_nf
    · simp only [if_neg hd]
      push_neg at hd
      rw [ih acc hacc0 haccs]
      have : max 0 d = 0 := max_eq_left hd
      rw [this]; ring_nf

/-- `cpuAccum` in closed form. -/
theorem cpuAccum_eq_min (spanD : ℚ) (hspan : 0 ≤ spanD) (ds : List ℚ) :
    cpuAccum spanD ds = min spanD ((ds.map (fun d => max 0 d)).sum) := by
  rw [cpuAccum, cpuAccumGo_eq_min spanD ds 0 le_rfl hspan, zero_add]

/-- The accumulated excess is nonnegative. -/
theorem cpuAccum_nonneg (spanD : ℚ) (hspan : 0 ≤ spanD) (ds : List ℚ) :
    0 ≤ cpuAccum spanD ds := by
  rw [cpuAccum_eq_min spanD hspan ds]
  refine le_min hspan ?_
  exact List.sum_nonneg (by intro x hx; simp only [List.mem_map] at hx
                            obtain ⟨y, _, rfl⟩ := hx; exact le_max_left 0 y)

/-- The accumulated excess never exceeds `spanD`. -/
theorem cpuAccum_le (spanD : ℚ) (hspan : 0 ≤ spanD) (ds : List ℚ) :
    cpuAccum spanD ds ≤ spanD := by
  rw [cpuAccum_eq_min spanD hspan ds]; exact min_le_left _ _

/-- `Dfinal` equals `min (Dmin + Dsum) Dmax` and lies in `[Dmin, Dmax]`
once `Dsum` comes out of the clamped accumulation. -/
theorem cpuDfinalFromSum_eq_min (Dmin Dmax : ℚ) (h : Dmin ≤ Dmax) (ds : List ℚ) :
    cpuDfinalFromSum Dmin Dmax (cpuAccum (Dmax - Dmin) ds)
      = min (Dmin + cpuAccum (Dmax - Dmin) ds) Dmax := by
  have hspan : (0:ℚ) ≤ Dmax - Dmin := by linarith
  have hle := cpuAccum_le (Dmax - Dmin) hspan ds
  unfold cpuDfinalFromSum
  by_cases hc : Dmax - Dmin ≤ cpuAccum (Dmax - Dmin) ds
  · have : cpuAccum (Dmax - Dmin) ds = Dmax - Dmin := le_antisymm hle hc
    rw [if_pos hc, this, min_eq_right (by linarith)]
  · push_neg at hc
    rw [if_neg (not_le.mpr hc), min_eq_left (by linarith)]

/-- C1: for every paper (`Dmin ≤ Dmax`) and every list of per-exposure excess
densities, the CPU accumulation loop of `processImage` (script.js:1549-1594)
clamps the excess sum at `Dmax - Dmin`: the loop returns `spanD` as soon as
the running sum reaches `spanD` (ignoring the remaining exposures), the final
density equals `min (Dmin + Dsum) Dmax` and lies in `[Dmin, Dmax]`, and with
`Dmin = 0.06`, `Dmax = 2.05`, two exposures of excess `1.5` each accumulate
to `1.99`, not `3.0`. -/
theorem excess_density_clamped (Dmin Dmax : ℚ) (h : Dmin ≤ Dmax) (ds : List ℚ) :
    (0 ≤ cpuAccum (Dmax - Dmin) ds ∧ cpuAccum (Dmax - Dmin) ds ≤ Dmax - Dmin) ∧
    (∀ acc d rest, 0 < d → Dmax - Dmin ≤ acc + d →
        cpuAccumGo (Dmax - Dmin) acc (d :: rest) = Dmax - Dmin) ∧
    cpuDfinalFromSum Dmin Dmax (cpuAccum (Dmax - Dmin) ds)
      = min (Dmin + cpuAccum (Dmax - Dmin) ds) Dmax ∧
    (Dmin ≤ cpuDfinalFromSum Dmin Dmax (cpuAccum (Dmax - Dmin) ds) ∧
      cpuDfinalFromSum Dmin Dmax (cpuAccum (Dmax - Dmin) ds) ≤ Dmax) ∧
    cpuAccum (199/100) [3/2, 3/2] = 199/100 := by
  have hspan : (0:ℚ) ≤ Dmax - Dmin := by linarith
  have hnn := cpuAccum_nonneg (Dmax - Dmin) hspan ds
  have hle := cpuAccum_le (Dmax - Dmin) hspan ds
  refine ⟨⟨hnn, hle⟩, ?_, cpuDfinalFromSum_eq_min Dmin Dmax h ds, ?_,
    by norm_num [cpuAccum, cpuAccumGo]⟩
  · intro acc d rest hd hs
    simp only [cpuAccumGo, if_pos hd, if_pos hs]
  · rw [cpuDfinalFromSum_eq_min Dmin Dmax h ds]
    constructor
    · exact le_min (by linarith) h
    · exact min_le_right _ _

/-- Witness for `excess_density_clamped` at the paper of the spec's example
(`Dmin = 0.06`, `Dmax = 2.05`) and excesses `[1.5, 1.5]`. -/
theorem excess_density_clamped_witness :
    (3/50 : ℚ) ≤ 41/20 ∧
      (3/50 : ℚ) ≤ cpuDfinalFromSum (3/50) (41/20) (cpuAccum (41/20 - 3/50) [3/2, 3/2]) ∧
      cpuDfinalFromSum (3/50) (41/20) (cpuAccum (41/20 - 3/50) [3/2, 3/2]) ≤ 41/20 :=
  ⟨by norm_num,
   (excess_density_clamped (3/50) (41/20) (by norm_num) [3/2, 3/2]).2.2.2.1⟩

/-! ## C3: `densityFromLogE` range and monotonicity -/

/-- C3: for valid parameters (`0 ≤ Dmin < Dmax`, `0 < k`) and any `logE`,
`densityFromLogE` (script.js:45-49) lies in `[Dmin, Dmax]` and is monotonically
non-decreasing in `logE`.  `E` models `Math.exp`; only its positivity and
monotonicity are used. -/
theorem densityFromLogE_range_mono (E : ℚ → ℚ)
    (hEpos : ∀ x, 0 < E x) (hEmono : Monotone E)
    (Dmin Dmax k E0 : ℚ) (_hDmin : 0 ≤ Dmin) (hDD : Dmin < Dmax) (hk : 0 < k) :
    (∀ logE, Dmin ≤ densityFromLogE E logE Dmin Dmax k E0 ∧
        densityFromLogE E logE Dmin Dmax k E0 ≤ Dmax) ∧
    (∀ l₁ l₂, l₁ ≤ l₂ →
        densityFromLogE E l₁ Dmin Dmax k E0 ≤ densityFromLogE E l₂ Dmin Dmax k E0) := by
  constructor
  · intro logE
    unfold densityFromLogE
    exact ⟨le_max_left _ _, max_le hDD.le (min_le_right _ _)⟩
  · intro l₁ l₂ hl
    unfold densityFromLogE
    have harg : -(k * (l₂ - E0)) ≤ -(k * (l₁ - E0)) := by nlinarith
    have hE : E (-(k * (l₂ - E0))) ≤ E (-(k * (l₁ - E0))) := hEmono harg
    have hpos₂ : (0:ℚ) < 1 + E (-(k * (l₂ - E0))) := by
      have := hEpos (-(k * (l₂ - E0))); linarith
    have hspan : (0:ℚ) ≤ Dmax - Dmin := by linarith
    have hdiv : (Dmax - Dmin) / (1 + E (-(k * (l₁ - E0))))
        ≤ (Dmax - Dmin) / (1 + E (-(k * (l₂ - E0)))) :=
      div_le_div_of_nonneg_left hspan hpos₂ (by linarith)
    exact max_le_max le_rfl (min_le_min (by linarith) le_rfl)

/-- Witness for `densityFromLogE_range_mono`: a constant positive monotone
`E`, `Dmin = 0`, `Dmax = 1`, `k = 1`, `E0 = 0`, evaluated at `logE = 0`. -/
theorem densityFromLogE_range_mono_witness :
    (0:ℚ) ≤ 0 ∧ (0:ℚ) < 1 ∧
      ((0:ℚ) ≤ densityFromLogE (fun _ => 1) 0 0 1 1 0 ∧
        densityFromLogE (fun _ => 1) 0 0 1 1 0 ≤ 1) :=
  ⟨le_rfl, by norm_num,
   (densityFromLogE_range_mono (fun _ => 1) (fun _ => by norm_num) monotone_const
      0 1 1 0 le_rfl (by norm_num) (by norm_num)).1 0⟩

/-- The two transmittance guards agree. -/
theorem cpuSafeTrans_eq_gpuSafeTrans (t : ℚ) : cpuSafeTrans t = gpuSafeTrans t := by
  unfold cpuSafeTrans gpuSafeTrans
  rcases lt_or_le eps t with h | h
  · rw [if_pos h, max_eq_right h.le]
  · rw [if_neg (not_lt.mpr h), max_eq_left h]

/-- The CPU and GPU mask log terms agree (the CPU reads `m = mask ? mask[j]
: 0`, so an absent mask is the value `0`). -/
theorem cpuLogMask_eq_gpuLogMask (lg : ℚ → ℚ) (mask : Option ℚ) :
    cpuLogMask lg ((mask.map id).getD 0) = gpuLogMask lg mask := by
  cases mask with
  | none => simp [cpuLogMask, gpuLogMask]
  | some a =>
    simp only [Option.map_id, Option.getD_some, cpuLogMask, gpuLogMask, id]
    by_cases ha : 0 < a
    · have h1 : 1 - a < 1 := by linarith
      have hne : max eps (1 - a) ≠ 1 := by
        have : max eps (1 - a) < 1 :=
          max_lt (by norm_num [eps]) h1
        exact ne_of_lt this
      rw [if_pos ha, if_neg hne, if_pos h1]
    · push_neg at ha
      have h1 : ¬ (1 - a < 1) := by push_neg; linarith
      rw [if_neg (not_lt.mpr ha), if_pos rfl, if_neg h1]

/-- Feeding a pre-clamped sum into `cpuDfinalFromSum` is the same as
clamping `Dmin + sum` at `Dmax`. -/
theorem cpuDfinalFromSum_min (Dmin Dmax S : ℚ) :
    cpuDfinalFromSum Dmin Dmax (min (Dmax - Dmin) S) = min (Dmin + S) Dmax := by
  unfold cpuDfinalFromSum
  rcases le_or_lt (Dmax - Dmin) S with h | h
  · rw [min_eq_left h, if_pos le_rfl, min_eq_right (by linarith)]
  · rw [min_eq_right h.le, if_neg (not_le.mpr h), min_eq_left (by linarith)]

/-- The CPU loop and the GPU shader compute the same per-pixel final density
when they share the sigmoid lookup `sig` and log `lg`, the paper is valid
(`Dmin ≤ Dmax`), and every exposure time is at least `1e-6` (below that the
CPU precompute logs the raw time while the GPU clamps it; see the C4
analysis). -/
theorem cpuDfinal_eq_gpuTotalDensity (sig lg : ℚ → ℚ) (Dmin Dmax logT : ℚ)
    (h : Dmin ≤ Dmax) (exps : List RExp) (ht : ∀ e ∈ exps, eps ≤ e.time) :
    cpuDfinal sig lg Dmin Dmax logT exps = gpuTotalDensity sig lg Dmin Dmax logT exps := by
  have hmapeq : exps.map (cpuExcess sig lg Dmin Dmax logT)
      = exps.map (gpuExcess sig lg Dmin Dmax logT) := by
    apply List.map_congr_left
    intro e he
    unfold cpuExcess gpuExcess
    rw [cpuLogMask_eq_gpuLogMask, max_eq_right (ht e he)]
  unfold cpuDfinal cpuDsum gpuTotalDensity
  rw [hmapeq, cpuAccum_eq_min _ (by linarith), List.map_map]
  exact cpuDfinalFromSum_min Dmin Dmax _

/-- Evaluation helper for `jsRound`. -/
theorem jsRound_eq (q : ℚ) (n : ℤ) (h1 : (n : ℚ) ≤ q + 1/2) (h2 : q + 1/2 < n + 1) :
    jsRound q = n :=
  Int.floor_eq_iff.mpr ⟨h1, by exact_mod_cast h2⟩

/-- Evaluation helper for `jsTrunc` on nonnegative arguments. -/
theorem jsTrunc_eq (q : ℚ) (n : ℤ) (h0 : 0 ≤ q) (h1 : (n : ℚ) ≤ q) (h2 : q < n + 1) :
    jsTrunc q = n := by
  unfold jsTrunc
  rw [if_pos h0]
  exact Int.floor_eq_iff.mpr ⟨h1, by exact_mod_cast h2⟩

/-! ## C2: GPU/CPU numerical consistency -/

/-- C2, amended: the shader pipeline and the CPU scalar loop agree exactly on
the per-pixel final density when they share the sigmoid LUT and log function,
the paper satisfies `Dmin ≤ Dmax`, and exposure times are at least `1e-6`
(they also use the same guarded transmittance).  The tone-mapped colors,
however, diverge; that is settled separately. -/
theorem compositor_density_refinement (sig lg : ℚ → ℚ) (Dmin Dmax logT : ℚ)
    (h : Dmin ≤ Dmax) (exps : List RExp) (ht : ∀ e ∈ exps, eps ≤ e.time) :
    (∀ t, cpuSafeTrans t = gpuSafeTrans t) ∧
    cpuDfinal sig lg Dmin Dmax logT exps = gpuTotalDensity sig lg Dmin Dmax logT exps :=
  ⟨cpuSafeTrans_eq_gpuSafeTrans,
   cpuDfinal_eq_gpuTotalDensity sig lg Dmin Dmax logT h exps ht⟩

/-- Witness for `compositor_density_refinement` at the concrete paper
`Dmin = 0.06`, `Dmax = 2.05`, one exposure. -/
theorem compositor_density_refinement_witness :
    ((3:ℚ)/50 ≤ 41/20 ∧ ∀ e ∈ [exp0], eps ≤ e.time) ∧
      cpuDfinal sig0 lg0 (3/50) (41/20) 0 [exp0]
        = gpuTotalDensity sig0 lg0 (3/50) (41/20) 0 [exp0] :=
  ⟨⟨by norm_num, by intro e he; simp only [List.mem_singleton] at he
                    subst he; norm_num [exp0, eps]⟩,
   (compositor_density_refinement sig0 lg0 (3/50) (41/20) 0 (by norm_num) [exp0]
      (by intro e he; simp only [List.mem_singleton] at he
          subst he; norm_num [exp0, eps])).2⟩

/-- C2, counterexample: at `Dmin = 0.06`, `Dmax = 2.05` (Ilford Multigrade)
and a sigmoid value of `94/199`, both paths compute final density exactly
`1`; there the shader's reflectance `10^(-1)` is exactly `1/10`, and the two
tone-mapped pixel colors are `(129, 132, 135)` (CPU byte-threshold path)
versus `(24, 25, 26)` (GPU reflectance path) — a divergence of 105 byte
levels, far beyond any float/LUT tolerance (formalized as 16 byte levels). -/
theorem compositor_color_diverges :
    cpuDfinal sig0 lg0 (3/50) (41/20) 0 [exp0] = 1 ∧
    gpuTotalDensity sig0 lg0 (3/50) (41/20) 0 [exp0] = 1 ∧
    cpuColor ilfordTone (3/50) (41/20) 1 = (129, 132, 135) ∧
    gpuColorByte ilfordTone (1/10) = (24, 25, 26) ∧
    ¬ ((129 : ℤ) - 24 ≤ 16) := by
  have hD : cpuDfinal sig0 lg0 (3/50) (41/20) 0 [exp0] = 1 := by
    norm_num [cpuDfinal, cpuDsum, cpuAccum, cpuAccumGo, cpuExcess, cpuLogMask,
      cpuDfinalFromSum, sig0, lg0, exp0]
  have hG : gpuTotalDensity sig0 lg0 (3/50) (41/20) 0 [exp0] = 1 := by
    norm_num [gpuTotalDensity, gpuExcess, gpuLogMask, sig0, lg0, exp0,
      min_def, max_def]
  have hv : cpuValue (3/50) (41/20) 1 = 135 := by
    have hr : jsRound ((26775 : ℚ)/199) = 135 := jsRound_eq _ 135 (by norm_num) (by norm_num)
    norm_num [cpuValue, min_def, max_def, hr]
  have hc : cpuColor ilfordTone (3/50) (41/20) 1 = (129, 132, 135) := by
    have t1 : jsTrunc ((648 : ℚ)/5) = 129 :=
      jsTrunc_eq _ 129 (by norm_num) (by norm_num) (by norm_num)
    have t2 : jsTrunc ((1323 : ℚ)/10) = 132 :=
      jsTrunc_eq _ 132 (by norm_num) (by norm_num) (by norm_num)
    have t3 : jsTrunc (135 : ℚ) = 135 :=
      jsTrunc_eq _ 135 (by norm_num) (by norm_num) (by norm_num)
    simp only [cpuColor, hv, cpuTone]
    norm_num [ilfordTone, t1, t2, t3]
  have hg : gpuColorByte ilfordTone (1/10) = (24, 25, 26) := by
    have r1 : jsRound ((3009 : ℚ)/125) = 24 :=
      jsRound_eq _ 24 (by norm_num) (by norm_num)
    have r2 : jsRound ((12393 : ℚ)/500) = 25 :=
      jsRound_eq _ 25 (by norm_num) (by norm_num)
    have r3 : jsRound ((51 : ℚ)/2) = 26 :=
      jsRound_eq _ 26 (by norm_num) (by norm_num)
    simp only [gpuColorByte, gpuCol, clamp01]
    norm_num [ilfordTone, min_def, max_def, r1, r2, r3]
  exact ⟨hD, hG, hc, hg, by norm_num⟩

/-- C5, amended: the GPU render path processes only the first 12 exposures —
its per-pixel density over any list equals the density over the list
truncated to 12, and appending exposures beyond a full cap leaves the GPU
density unchanged.  (The CPU fallback loop has no such cap; that is settled
separately.) -/
theorem gpu_render_caps_at_twelve (sig lg : ℚ → ℚ) (Dmin Dmax logT : ℚ)
    (exps : List RExp) :
    gpuRenderDensity sig lg Dmin Dmax logT exps
      = gpuRenderDensity sig lg Dmin Dmax logT (exps.take maxExposures) ∧
    (∀ extra : List RExp, exps.length = maxExposures →
      gpuRenderDensity sig lg Dmin Dmax logT (exps ++ extra)
        = gpuRenderDensity sig lg Dmin Dmax logT exps) := by
  constructor
  · unfold gpuRenderDensity
    rw [List.take_take, min_self]
  · intro extra hlen
    unfold gpuRenderDensity
    rw [List.take_of_length_le hlen.le, List.take_left' hlen]

/-- C5, counterexample: the CPU fallback loop (`processImage`,
script.js:1554) iterates over the whole exposure list with no cap — with 13
exposures whose 13th is the only one contributing density, the CPU final
density is `1`, while on the first 12 exposures alone it is `0`.  The 13th
exposure is not ignored. -/
theorem cpu_render_no_cap_counterexample :
    cpuDfinal sigStep lg0 0 1 0
        [expLow, expLow, expLow, expLow, expLow, expLow,
         expLow, expLow, expLow, expLow, expLow, expLow, expHi] = 1 ∧
    cpuDfinal sigStep lg0 0 1 0
        ([expLow, expLow, expLow, expLow, expLow, expLow,
          expLow, expLow, expLow, expLow, expLow, expLow, expHi].take maxExposures) = 0 ∧
    ([expLow, expLow, expLow, expLow, expLow, expLow,
      expLow, expLow, expLow, expLow, expLow, expLow, expHi] : List RExp).length = 13 := by
  refine ⟨?_, ?_, by simp⟩
  · norm_num [cpuDfinal, cpuDsum, cpuAccum, cpuAccumGo, cpuExcess, cpuLogMask,
      cpuDfinalFromSum, sigStep, lg0, expLow, expHi]
  · norm_num [maxExposures, cpuDfinal, cpuDsum, cpuAccum, cpuAccumGo, cpuExcess,
      cpuLogMask, cpuDfinalFromSum, sigStep, lg0, expLow]

/-- Witness for `gpu_render_caps_at_twelve` on a concrete 12-exposure list. -/
theorem gpu_render_caps_at_twelve_witness :
    (List.replicate 12 expLow : List RExp).length = maxExposures ∧
      gpuRenderDensity sigStep lg0 0 1 0 (List.replicate 12 expLow ++ [expHi])
        = gpuRenderDensity sigStep lg0 0 1 0 (List.replicate 12 expLow) :=
  ⟨by simp [maxExposures],
   (gpu_render_caps_at_twelve sigStep lg0 0 1 0 (List.replicate 12 expLow)).2
     [expHi] (by simp [maxExposures])⟩

/-! ## C7: permutation invariance of the density sum -/

/-- C7, amended: with the paper, transmittance and per-exposure data fixed,
permuting the exposure list leaves the CPU per-pixel final density — and
hence the CPU pixel color — unchanged (the early exit does not break
additivity), and likewise the GPU render density whenever the list is within
the 12-exposure cap.  (Beyond the cap the GPU path is order-sensitive;
that is settled separately.) -/
theorem density_perm_invariant (sig lg : ℚ → ℚ) (Dmin Dmax logT : ℚ)
    (ct : ColorTone) (h : Dmin ≤ Dmax) (l₁ l₂ : List RExp) (hp : l₁.Perm l₂) :
    cpuDfinal sig lg Dmin Dmax logT l₁ = cpuDfinal sig lg Dmin Dmax logT l₂ ∧
    cpuColor ct Dmin Dmax (cpuDfinal sig lg Dmin Dmax logT l₁)
      = cpuColor ct Dmin Dmax (cpuDfinal sig lg Dmin Dmax logT l₂) ∧
    (l₁.length ≤ maxExposures →
      gpuRenderDensity sig lg Dmin Dmax logT l₁
        = gpuRenderDensity sig lg Dmin Dmax logT l₂) := by
  have hsum : ∀ f : RExp → ℚ,
      ((l₁.map f).map (fun d => max 0 d)).sum = ((l₂.map f).map (fun d => max 0 d)).sum :=
    fun f => ((hp.map f).map _).sum_eq
  have hcpu : cpuDfinal sig lg Dmin Dmax logT l₁ = cpuDfinal sig lg Dmin Dmax logT l₂ := by
    unfold cpuDfinal cpuDsum
    rw [cpuAccum_eq_min _ (by linarith), cpuAccum_eq_min _ (by linarith),
      hsum (cpuExcess sig lg Dmin Dmax logT)]
  refine ⟨hcpu, by rw [hcpu], ?_⟩
  intro hlen
  unfold gpuRenderDensity gpuTotalDensity
  rw [List.take_of_length_le hlen, List.take_of_length_le (hp.length_eq ▸ hlen)]
  have := (hp.map (fun e => max 0 (gpuExcess sig lg Dmin Dmax logT e))).sum_eq
  rw [this]

/-- Witness for `density_perm_invariant`: swapping two concrete exposures. -/
theorem density_perm_invariant_witness :
    ([expLow, expHi] : List RExp).Perm [expHi, expLow] ∧
      cpuDfinal sigStep lg0 0 1 0 [expLow, expHi]
        = cpuDfinal sigStep lg0 0 1 0 [expHi, expLow] :=
  ⟨List.Perm.swap _ _ _,
   (density_perm_invariant sigStep lg0 0 1 0 ilfordTone (by norm_num)
      [expLow, expHi] [expHi, expLow] (List.Perm.swap _ _ _)).1⟩

/-- C7, counterexample: beyond the 12-exposure cap the GPU render path is
not permutation-invariant — moving the only contributing exposure from
position 13 (ignored) to position 1 (processed) changes the per-pixel
density from `0` to `1`, although the two lists are permutations of each
other. -/
theorem gpu_density_perm_sensitive_beyond_cap :
    (List.replicate 12 expLow ++ [expHi] : List RExp).Perm
        (expHi :: List.replicate 12 expLow) ∧
    gpuRenderDensity sigStep lg0 0 1 0 (List.replicate 12 expLow ++ [expHi]) = 0 ∧
    gpuRenderDensity sigStep lg0 0 1 0 (expHi :: List.replicate 12 expLow) = 1 := by
  refine ⟨List.perm_append_singleton _ _, ?_, ?_⟩
  · have htake : (List.replicate 12 expLow ++ [expHi] : List RExp).take maxExposures
        = List.replicate 12 expLow :=
      List.take_left' (by simp [maxExposures])
    rw [gpuRenderDensity, htake]
    norm_num [gpuTotalDensity, gpuExcess, gpuLogMask, sigStep, lg0, expLow,
      List.replicate, min_def, max_def]
  · have htake : (expHi :: List.replicate 12 expLow : List RExp).take maxExposures
        = expHi :: List.replicate 11 expLow := by
      simp [maxExposures, List.replicate]
    rw [gpuRenderDensity, htake]
    norm_num [gpuTotalDensity, gpuExcess, gpuLogMask, sigStep, lg0, expLow, expHi,
      List.replicate, min_def, max_def]

/-- C4, amended: epsilon substitution happens at the transmittance log of
both paths, at the mask log of both paths, and at the GPU time log — all of
which therefore always produce finite values — and the resulting density
always lies in `[Dmin, Dmax]`; but the CPU per-exposure precompute logs the
raw time, so at zero or negative time its log is not finite (no epsilon is
substituted there; that is settled separately). -/
theorem epsilon_guards (lg : ℚ → ℚ) (Dmin Dmax : ℚ) (h : Dmin ≤ Dmax) :
    (∀ t : ℚ, eps ≤ gpuSafeTrans t ∧ (gpuLogTransOpt lg t).isSome) ∧
    (∀ t : ℚ, eps ≤ cpuSafeTrans t ∧ (cpuLogTransOpt lg t).isSome) ∧
    (∀ t : ℚ, eps ≤ max eps t ∧ (gpuLogTimeOpt lg t).isSome) ∧
    (∀ m : ℚ, eps ≤ cpuMaskLogArg m) ∧
    (∀ t : ℚ, t ≤ 0 → cpuLogTimeOpt lg t = none) ∧
    (∀ ds : List ℚ,
      Dmin ≤ cpuDfinalFromSum Dmin Dmax (cpuAccum (Dmax - Dmin) ds) ∧
      cpuDfinalFromSum Dmin Dmax (cpuAccum (Dmax - Dmin) ds) ≤ Dmax) := by
  have heps : (0:ℚ) < eps := by norm_num [eps]
  refine ⟨?_, ?_, ?_, ?_, ?_, ?_⟩
  · intro t
    have hle : eps ≤ gpuSafeTrans t := le_max_left _ _
    exact ⟨hle, by simp [gpuLogTransOpt, jsLog10, lt_of_lt_of_le heps hle]⟩
  · intro t
    have hle : eps ≤ cpuSafeTrans t := by
      unfold cpuSafeTrans
      split
      · next ht => exact (le_of_lt ht)
      · exact le_rfl
    exact ⟨hle, by simp [cpuLogTransOpt, jsLog10, lt_of_lt_of_le heps hle]⟩
  · intro t
    have hle : eps ≤ max eps t := le_max_left _ _
    exact ⟨hle, by simp [gpuLogTimeOpt, jsLog10, lt_of_lt_of_le heps hle]⟩
  · intro m
    unfold cpuMaskLogArg
    split
    · exact le_max_left _ _
    · norm_num [eps]
  · intro t ht
    have : ¬ (0 < t) := not_lt.mpr ht
    simp [cpuLogTimeOpt, jsLog10, this]
  · intro ds
    have hspan : (0:ℚ) ≤ Dmax - Dmin := by linarith
    have hnn := cpuAccum_nonneg (Dmax - Dmin) hspan ds
    rw [cpuDfinalFromSum_eq_min Dmin Dmax h ds]
    exact ⟨le_min (by linarith) h, min_le_right _ _⟩

/-- Witness for `epsilon_guards` with `lg = id` at the paper
`Dmin = 0.06`, `Dmax = 2.05` and time `0`. -/
theorem epsilon_guards_witness :
    (3/50 : ℚ) ≤ 41/20 ∧ (0:ℚ) ≤ 0 ∧
      (gpuLogTimeOpt id 0).isSome ∧ cpuLogTimeOpt id 0 = none :=
  ⟨by norm_num, le_rfl,
   ((epsilon_guards id (3/50) (41/20) (by norm_num)).2.2.1 0).2,
   (epsilon_guards id (3/50) (41/20) (by norm_num)).2.2.2.2.1 0 le_rfl⟩

/-- C4, counterexample: at exposure time `0` the CPU render path takes
`Math.log(0)` — no epsilon is substituted before the logarithm, so it has no
finite value — while the GPU path substitutes `1e-6` and yields a finite
log.  (The final CPU density nevertheless stays in `[Dmin, Dmax]`, because
the LUT lookup maps the non-finite intermediate into `[0,1]`.) -/
theorem cpu_time_log_unguarded :
    cpuLogTimeOpt id 0 = none ∧
    gpuLogTimeOpt id 0 = some (1/1000000) ∧
    cpuLogTimeOpt id (-1) = none := by
  refine ⟨?_, ?_, ?_⟩
  · simp [cpuLogTimeOpt, jsLog10]
  · norm_num [gpuLogTimeOpt, jsLog10, eps, max_def]
  · norm_num [cpuLogTimeOpt, jsLog10]

/-- The radial gradient alpha lies in `[0,1]`. -/
theorem stampAlpha_mem (tI tM u : ℚ) (_h0 : 0 ≤ tI) (_h1 : tI ≤ tM) (h2 : tM ≤ 1)
    (_hu0 : 0 ≤ u) (hu1 : u ≤ 1) :
    0 ≤ stampAlpha tI tM u ∧ stampAlpha tI tM u ≤ 1 := by
  unfold stampAlpha
  split
  · norm_num
  · next hgt =>
    push_neg at hgt
    split
    · next hle =>
      have hlt : tI < tM := lt_of_lt_of_le hgt hle
      have hρ0 : 0 ≤ (u - tI) / (tM - tI) := by
        apply div_nonneg <;> linarith
      have hρ1 : (u - tI) / (tM - tI) ≤ 1 := by
        rw [div_le_one (by linarith)]; linarith
      constructor <;> nlinarith
    · next hgt2 =>
      push_neg at hgt2
      have hlt : tM < 1 := lt_of_lt_of_le hgt2 hu1
      have hρ0 : 0 ≤ (u - tM) / (1 - tM) := by
        apply div_nonneg <;> linarith
      have hρ1 : (u - tM) / (1 - tM) ≤ 1 := by
        rw [div_le_one (by linarith)]; linarith
      constructor <;> nlinarith

/-- `source-over` keeps alpha in `[0,1]`. -/
theorem srcOver_mem (as ad : ℚ) (ha0 : 0 ≤ as) (ha1 : as ≤ 1) (hd0 : 0 ≤ ad) (hd1 : ad ≤ 1) :
    0 ≤ srcOver as ad ∧ srcOver as ad ≤ 1 := by
  unfold srcOver
  constructor <;> nlinarith

/-- One stroke operation keeps a pixel's mask alpha in `[0,1]`. -/
theorem applyOp_mem (ad : ℚ) (op : StrokeOp) (h0 : 0 ≤ ad) (h1 : ad ≤ 1)
    (hv : validOp op) : 0 ≤ applyOp ad op ∧ applyOp ad op ≤ 1 := by
  cases op with
  | dodge flow tI tM u =>
    obtain ⟨hf0, hf1, htI, htIM, htM, hu0, hu1⟩ := hv
    obtain ⟨hs0, hs1⟩ := stampAlpha_mem tI tM u htI htIM htM hu0 hu1
    exact srcOver_mem _ _ (by positivity) (by nlinarith) h0 h1
  | erase tI tM u =>
    obtain ⟨htI, htIM, htM, hu0, hu1⟩ := hv
    obtain ⟨hs0, hs1⟩ := stampAlpha_mem tI tM u htI htIM htM hu0 hu1
    simp only [applyOp, eraseStampPixel, destOut]
    constructor <;> nlinarith
  | clear => exact ⟨le_rfl, by norm_num [applyOp]⟩
  | invert =>
    simp only [applyOp]
    constructor <;> linarith

/-- C8: after every sequence of stroke operations (dodge stamps,
interpolated stroke segments as stamp sequences, erase stamps, clears,
mask inversions) a pixel's mask value stays in `[0,1]`; a dodge stamp never
decreases the value and leaves the gap to `1` as the product
`(1 - flow·α)(1 - ad)` — so repeated dodge stamps converge toward but never
exceed `1` — an erase stamp never increases the value and never goes below
`0`; the `tInner`/`tMid` stops computed from any feather value are valid;
`invertDodgeMask`'s byte inversion stays a byte, corresponds to `1 - a` on
the normalized mask, and stays in `[0,1]`; and the `alpha/255` readback of
`updateMaskData` lies in `[0,1]`. -/
theorem mask_values_stay_in_unit_interval (ops : List StrokeOp) (ad : ℚ)
    (h0 : 0 ≤ ad) (h1 : ad ≤ 1) (hv : ∀ op ∈ ops, validOp op) :
    (0 ≤ ops.foldl applyOp ad ∧ ops.foldl applyOp ad ≤ 1) ∧
    (∀ flow tI tM u x, validOp (.dodge flow tI tM u) → 0 ≤ x → x ≤ 1 →
      (x ≤ dodgeStampPixel flow tI tM u x ∧ dodgeStampPixel flow tI tM u x ≤ 1 ∧
        1 - dodgeStampPixel flow tI tM u x
          = (1 - flow * stampAlpha tI tM u) * (1 - x))) ∧
    (∀ tI tM u x, validOp (.erase tI tM u) → 0 ≤ x → x ≤ 1 →
      (0 ≤ eraseStampPixel tI tM u x ∧ eraseStampPixel tI tM u x ≤ x)) ∧
    (∀ feather, 0 ≤ tInnerOf feather ∧ tInnerOf feather ≤ tMidOf feather ∧
      tMidOf feather ≤ 1) ∧
    (∀ a : ℕ, a ≤ 255 →
      (invertAlphaByte a ≤ 255 ∧
        maskFromAlpha (invertAlphaByte a) = 1 - maskFromAlpha a ∧
        0 ≤ maskFromAlpha (invertAlphaByte a) ∧ maskFromAlpha (invertAlphaByte a) ≤ 1)) ∧
    (∀ a : ℕ, a ≤ 255 → 0 ≤ maskFromAlpha a ∧ maskFromAlpha a ≤ 1) := by
  have hreadback : ∀ a : ℕ, a ≤ 255 → 0 ≤ maskFromAlpha a ∧ maskFromAlpha a ≤ 1 := by
    intro a ha
    unfold maskFromAlpha
    constructor
    · positivity
    · rw [div_le_one (by norm_num)]
      exact_mod_cast ha
  refine ⟨?_, ?_, ?_, ?_, ?_, hreadback⟩
  · induction ops generalizing ad with
    | nil => exact ⟨h0, h1⟩
    | cons op rest ih =>
      rw [List.foldl_cons]
      obtain ⟨ha, hb⟩ := applyOp_mem ad op h0 h1 (hv op (List.mem_cons_self op rest))
      exact ih _ ha hb (fun o ho => hv o (List.mem_cons_of_mem _ ho))
  · intro flow tI tM u x hvd hx0 hx1
    obtain ⟨hf0, hf1, htI, htIM, htM, hu0, hu1⟩ := hvd
    obtain ⟨hs0, hs1⟩ := stampAlpha_mem tI tM u htI htIM htM hu0 hu1
    have hfa0 : 0 ≤ flow * stampAlpha tI tM u := mul_nonneg hf0 hs0
    have hfa1 : flow * stampAlpha tI tM u ≤ 1 := by nlinarith
    unfold dodgeStampPixel srcOver
    refine ⟨by nlinarith [mul_nonneg hfa0 (sub_nonneg.mpr hx1)],
      by nlinarith [mul_nonneg (sub_nonneg.mpr hfa1) (sub_nonneg.mpr hx1)],
      by ring⟩
  · intro tI tM u x hve hx0 hx1
    obtain ⟨htI, htIM, htM, hu0, hu1⟩ := hve
    obtain ⟨hs0, hs1⟩ := stampAlpha_mem tI tM u htI htIM htM hu0 hu1
    unfold eraseStampPixel destOut
    constructor <;> nlinarith
  · intro feather
    refine ⟨le_max_left _ _, le_max_left _ _, ?_⟩
    unfold tMidOf tInnerOf
    apply max_le
    · exact max_le (by norm_num) (min_le_left _ _)
    · exact min_le_left _ _
  · intro a ha
    have hle : invertAlphaByte a ≤ 255 := Nat.sub_le 255 a
    have hcast : ((invertAlphaByte a : ℕ) : ℚ) = 255 - (a : ℚ) := by
      unfold invertAlphaByte
      push_cast [Nat.cast_sub ha]
      ring
    have heq : maskFromAlpha (invertAlphaByte a) = 1 - maskFromAlpha a := by
      unfold maskFromAlpha
      rw [hcast]
      ring
    obtain ⟨hm0, hm1⟩ := hreadback (invertAlphaByte a) hle
    exact ⟨hle, heq, hm0, hm1⟩

/-- Witness for `mask_values_stay_in_unit_interval`: a dodge stamp with the
source's `brushFlow = 0.03` at the center of the brush, then an erase stamp,
starting from an empty mask pixel. -/
theorem mask_values_stay_in_unit_interval_witness :
    ((0:ℚ) ≤ 0 ∧ (0:ℚ) ≤ 1 ∧
      (∀ op ∈ [StrokeOp.dodge (3/100) (9/10) (19/20) 0, StrokeOp.erase (9/10) (19/20) 0,
          StrokeOp.invert], validOp op)) ∧
    (0 ≤ ([StrokeOp.dodge (3/100) (9/10) (19/20) 0,
           StrokeOp.erase (9/10) (19/20) 0, StrokeOp.invert].foldl applyOp 0) ∧
      ([StrokeOp.dodge (3/100) (9/10) (19/20) 0,
        StrokeOp.erase (9/10) (19/20) 0, StrokeOp.invert].foldl applyOp 0) ≤ 1) := by
  have hv : ∀ op ∈ [StrokeOp.dodge (3/100) (9/10) (19/20) 0,
      StrokeOp.erase (9/10) (19/20) 0, StrokeOp.invert], validOp op := by
    intro op hop
    simp only [List.mem_cons, List.mem_singleton] at hop
    rcases hop with rfl | rfl | rfl | h
    · exact ⟨by norm_num, by norm_num, by norm_num, by norm_num, by norm_num,
        le_rfl, by norm_num⟩
    · exact ⟨by norm_num, by norm_num, by norm_num, le_rfl, by norm_num⟩
    · exact trivial
    · cases h
  exact ⟨⟨le_rfl, by norm_num, hv⟩,
    (mask_values_stay_in_unit_interval _ 0 le_rfl (by norm_num) hv).1⟩

/-- The counting loop computes occurrence counts. -/
theorem histFold_count (vals : List ℕ) (i : ℕ) :
    histFold vals i = List.count i vals := by
  suffices h : ∀ f : ℕ → ℕ, (vals.foldl bump f) i = f i + List.count i vals by
    have := h (fun _ => 0)
    simpa [histFold] using this
  induction vals with
  | nil => intro f; simp
  | cons v rest ih =>
    intro f
    rw [List.foldl_cons, ih, List.count_cons]
    unfold bump
    by_cases hiv : i = v
    · subst hiv; simp; omega
    · simp [hiv, Ne.symm hiv]

/-- C9, amended: each histogram builder produces per-channel frequency
counts — bin `i` holds exactly the number of (sampled) pixels with value
`i`; all values being bytes, every bin above 255 is zero (256 effective
bins); the sampled builder walks exactly the every-4th-pixel grid; an empty
image yields all-zero counts in both builders; and the normalization of
`generateHistogram` is well-defined (`some`) whenever some pixel exists.
(For the empty image the normalized bins of `generateHistogram` are `NaN`,
not zero; that is settled separately.) -/
theorem histogram_builder_counts (w h : ℕ) (px : ℕ → ℕ → ℕ) (vals : List ℕ) :
    (∀ i, histFold vals i = List.count i vals) ∧
    ((∀ v ∈ vals, v ≤ 255) → ∀ i, 255 < i → histFold vals i = 0) ∧
    (∀ i, histFold ([] : List ℕ) i = 0) ∧
    (∀ i n, i ∈ stepIndices n ↔ i < n ∧ i % 4 = 0) ∧
    (h = 0 ∨ w = 0 → ∀ i, buildHistogramSampled w h px i = 0) ∧
    (∀ rs gs bs : List ℕ, maxCount3 rs gs bs ≠ 0 →
      ∀ i, (genHistNormR rs gs bs i).isSome) := by
  refine ⟨fun i => histFold_count vals i, ?_, ?_, ?_, ?_, ?_⟩
  · intro hb i hi
    rw [histFold_count]
    rw [List.count_eq_zero]
    intro hmem
    exact absurd (hb i hmem) (by omega)
  · intro i; rfl
  · intro i n
    simp only [stepIndices, List.mem_filter, List.mem_range, decide_eq_true_eq]
  · intro hwh i
    have hnil : sampledPixels w h px = [] := by
      rcases hwh with rfl | rfl
      · simp [sampledPixels, stepIndices]
      · simp [sampledPixels, stepIndices]
    unfold buildHistogramSampled
    rw [hnil]
    rfl
  · intro rs gs bs hm i
    simp [genHistNormR, jsDivCount, hm]

set_option maxRecDepth 4000 in
/-- Witness for `histogram_builder_counts` on a concrete 8×8 single-value
image: the sampled builder counts its four grid pixels into bin 7. -/
theorem histogram_builder_counts_witness :
    ((0:ℕ) = 0 ∨ (8:ℕ) = 0 → ∀ i, buildHistogramSampled 8 0 (fun _ _ => 7) i = 0) ∧
      buildHistogramSampled 8 8 (fun _ _ => 7) 7 = 4 := by
  constructor
  · exact (histogram_builder_counts 8 0 (fun _ _ => 7) []).2.2.2.2.1
  · decide

set_option maxRecDepth 4000 in
/-- C9, counterexample: on an empty image `generateHistogram`'s in-place
normalization divides the all-zero bins by a zero maximum (`0 / 0 = NaN` in
JavaScript), so the resulting stored histogram is `NaN`-valued, not the
claimed all-zero — even though the frequency counts before normalization
are indeed all zero. -/
theorem generateHistogram_empty_normalizes_to_nan :
    maxCount3 [] [] [] = 0 ∧
    histFold ([] : List ℕ) 0 = 0 ∧
    genHistNormR [] [] [] 0 = none ∧
    genHistNormR [] [] [] 0 ≠ some 0 := by
  refine ⟨by decide, rfl, ?_, ?_⟩
  · have h : maxCount3 [] [] [] = 0 := by decide
    simp [genHistNormR, jsDivCount, h]
  · have h : maxCount3 [] [] [] = 0 := by decide
    simp [genHistNormR, jsDivCount, h]

/-- Reading back exactly the bytes just written. -/
theorem readBytes_exact (l r : List ℕ) : readBytes l.length (l ++ r) = some (l, r) := by
  induction l with
  | nil => rfl
  | cons b rest ih => simp [readBytes, ih]

/-- Reducing bytes modulo 256 is the identity on byte lists. -/
theorem map_mod_256 (l : List ℕ) (hb : ∀ b ∈ l, b < 256) : l.map (· % 256) = l := by
  have : l.map (· % 256) = l.map id :=
    List.map_congr_left fun b hbl => Nat.mod_eq_of_lt (hb b hbl)
  rw [this, List.map_id]

/-- `readU32` inverts `u32le` below `2^32`. -/
theorem readU32_u32le (n : ℕ) (hn : n < 2 ^ 32) (r : List ℕ) :
    readU32 (u32le n ++ r) = some (n, r) := by
  simp only [u32le, List.cons_append, List.nil_append, readU32, Option.some.injEq,
    Prod.mk.injEq]
  norm_num
  omega

/-- `readI32` inverts `i32le` on the `int32` range. -/
theorem readI32_i32le (g : ℤ) (h1 : -(2 ^ 31) ≤ g) (h2 : g < 2 ^ 31) (r : List ℕ) :
    readI32 (i32le g ++ r) = some (g, r) := by
  have hnn : 0 ≤ g % 2 ^ 32 := Int.emod_nonneg g (by norm_num)
  have hlt : g % 2 ^ 32 < 2 ^ 32 := Int.emod_lt_of_pos g (by norm_num)
  have hvlt : (g % 2 ^ 32).toNat < 2 ^ 32 := by omega
  unfold i32le readI32
  rw [readU32_u32le _ hvlt]
  have key : (if (g % 2 ^ 32).toNat < 2 ^ 31 then (((g % 2 ^ 32).toNat : ℕ) : ℤ)
      else (((g % 2 ^ 32).toNat : ℕ) : ℤ) - 2 ^ 32) = g := by
    split_ifs with hcase <;> omega
  simp only []
  rw [key]

/-- One exposure round-trips. -/
theorem parseExposure_serializeExposure {T : Type} (enc : T → List ℕ) (dec : List ℕ → T)
    (h8 : ∀ t, (enc t).length = 8) (hrt : ∀ t, dec (enc t) = t)
    (e : PExposure T) (hwf : WFExposure e) (r : List ℕ) :
    parseExposure dec (serializeExposure enc e ++ r) = some (e, r) := by
  obtain ⟨hlen, hbytes, hg1, hg2, hmask⟩ := hwf
  obtain ⟨eid, et, eg, em⟩ := e
  dsimp only at hlen hbytes hg1 hg2 hmask ⊢
  cases em with
  | none =>
    unfold serializeExposure parseExposure
    dsimp only
    rw [map_mod_256 eid hbytes]
    simp only [List.append_assoc]
    rw [readU32_u32le _ hlen]
    simp only []
    rw [readBytes_exact]
    simp only []
    rw [← h8 et, readBytes_exact]
    simp only []
    rw [readI32_i32le _ hg1 hg2]
    simp only [readU8]
    simp [hrt]
  | some m =>
    obtain ⟨mw, mh, md⟩ := m
    obtain ⟨hw, hh, hdata, hdb⟩ := hmask ⟨mw, mh, md⟩ rfl
    dsimp only at hw hh hdata hdb
    unfold serializeExposure parseExposure
    dsimp only
    rw [map_mod_256 eid hbytes, map_mod_256 md hdb]
    simp only [List.append_assoc, List.cons_append, List.nil_append]
    rw [readU32_u32le _ hlen]
    simp only []
    rw [readBytes_exact]
    simp only []
    rw [← h8 et, readBytes_exact]
    simp only []
    rw [readI32_i32le _ hg1 hg2]
    simp only [readU8, if_pos rfl]
    rw [readU32_u32le _ hw]
    simp only []
    rw [readU32_u32le _ hh]
    simp only []
    rw [← hdata, readBytes_exact]
    simp [hrt]

/-- The exposure loop round-trips. -/
theorem parseExposures_roundtrip {T : Type} (enc : T → List ℕ) (dec : List ℕ → T)
    (h8 : ∀ t, (enc t).length = 8) (hrt : ∀ t, dec (enc t) = t)
    (es : List (PExposure T)) (hwf : ∀ e ∈ es, WFExposure e) (r : List ℕ) :
    parseExposures dec es.length ((es.map (serializeExposure enc)).flatten ++ r)
      = some (es, r) := by
  induction es generalizing r with
  | nil => rfl
  | cons e rest ih =>
    simp only [List.map_cons, List.flatten_cons, List.length_cons, List.append_assoc]
    unfold parseExposures
    rw [parseExposure_serializeExposure enc dec h8 hrt e (hwf e (List.mem_cons_self e rest))]
    simp only []
    rw [ih (fun x hx => hwf x (List.mem_cons_of_mem _ hx))]

/-- C6: parse-after-serialize is the identity — for every project state
(paper-type bytes and ordered exposures with id bytes, time, grade and
optional mask) within the source's bounds (`WFProject`), and every 8-byte
time codec with `dec ∘ enc = id` (as `DataView`'s float64 round-trip
guarantees), parsing the serialized `.ddr` buffer recovers exactly the
project. -/
theorem ddr_parse_serialize_roundtrip {T : Type} (enc : T → List ℕ) (dec : List ℕ → T)
    (h8 : ∀ t, (enc t).length = 8) (hrt : ∀ t, dec (enc t) = t)
    (p : Project T) (hwf : WFProject p) :
    parseBinaryProjectData dec (serializeProject enc p) = some p := by
  obtain ⟨hptlen, hptbytes, hexplen, hexpwf⟩ := hwf
  have hloop := parseExposures_roundtrip enc dec h8 hrt p.exposures hexpwf []
  rw [List.append_nil] at hloop
  unfold serializeProject parseBinaryProjectData
  rw [map_mod_256 p.paperType hptbytes]
  simp only [List.cons_append, List.nil_append, List.append_assoc]
  rw [show readMagic (68 :: 68 :: 82 :: 77 ::
      (u32le 1 ++ (u32le p.paperType.length ++ (p.paperType ++
        (u32le p.exposures.length ++ (p.exposures.map (serializeExposure enc)).flatten)))))
      = some (u32le 1 ++ (u32le p.paperType.length ++ (p.paperType ++
        (u32le p.exposures.length ++ (p.exposures.map (serializeExposure enc)).flatten))))
      from rfl]
  simp only []
  rw [readU32_u32le 1 (by norm_num)]
  simp only [if_pos rfl]
  rw [readU32_u32le _ hptlen]
  simp only []
  rw [readBytes_exact]
  simp only []
  rw [readU32_u32le _ hexplen]
  simp only []
  rw [hloop]
  simp

/-- Witness for `ddr_parse_serialize_roundtrip` at `sampleProject`. -/
theorem ddr_parse_serialize_roundtrip_witness :
    (∀ t, (timeEnc8 t).length = 8) ∧ (∀ t, timeDec8 (timeEnc8 t) = t) ∧
      parseBinaryProjectData timeDec8 (serializeProject timeEnc8 sampleProject)
        = some sampleProject := by
  have h8 : ∀ t, (timeEnc8 t).length = 8 := fun t => rfl
  have hrt : ∀ t, timeDec8 (timeEnc8 t) = t := by
    intro t
    simp only [timeEnc8, timeDec8]
    exact Fin.ext (Nat.mod_eq_of_lt t.2)
  refine ⟨h8, hrt, ?_⟩
  apply ddr_parse_serialize_roundtrip timeEnc8 timeDec8 h8 hrt
  refine ⟨by norm_num [sampleProject], ?_, by norm_num [sampleProject], ?_⟩
  · intro b hb
    simp only [sampleProject, List.mem_cons, List.not_mem_nil, or_false] at hb
    rcases hb with rfl | rfl <;> norm_num
  · intro e he
    simp only [sampleProject, List.mem_cons, List.not_mem_nil, or_false] at he
    rcases he with rfl | rfl
    · exact ⟨by norm_num, by intro b hb; simp at hb; omega,
        by norm_num, by norm_num, by intro m hm; cases hm⟩
    · refine ⟨by norm_num, by intro b hb; simp at hb; omega,
        by norm_num, by norm_num, ?_⟩
      intro m hm
      injection hm with hm
      subst hm
      refine ⟨by norm_num, by norm_num, by norm_num, ?_⟩
      intro b hb
      simp only [List.mem_cons, List.not_mem_nil, or_false] at hb
      rcases hb with rfl | rfl | rfl | rfl <;> norm_num

/-- C10: `parseBinaryProjectData` is total at its interface — on every byte
buffer it returns either a parsed project or `none` (the model of the
source's `null`); it returns `none` whenever the buffer does not begin with
the `"DDRM"` magic bytes, and `none` whenever the version field after the
magic is not `1`.  (It is a pure function of the buffer: the embedding
touches no other state.) -/
theorem parseBinaryProjectData_total {T : Type} (dec : List ℕ → T) :
    (∀ bs : List ℕ, parseBinaryProjectData dec bs = none ∨
      ∃ p, parseBinaryProjectData dec bs = some p) ∧
    (∀ bs : List ℕ, bs.take 4 ≠ [68, 68, 82, 77] →
      parseBinaryProjectData dec bs = none) ∧
    (∀ v r, v < 2 ^ 32 → v ≠ 1 →
      parseBinaryProjectData dec (68 :: 68 :: 82 :: 77 :: (u32le v ++ r)) = none) := by
  refine ⟨?_, ?_, ?_⟩
  · intro bs
    cases h : parseBinaryProjectData dec bs with
    | none => exact Or.inl rfl
    | some p => exact Or.inr ⟨p, rfl⟩
  · intro bs hmagic
    have hnone : readMagic bs = none := by
      cases hsome : readMagic bs with
      | none => rfl
      | some r =>
        exfalso
        apply hmagic
        unfold readMagic at hsome
        split at hsome
        · next rest => cases hsome; rfl
        · cases hsome
    unfold parseBinaryProjectData
    rw [hnone]
  · intro v r hv hne
    unfold parseBinaryProjectData
    rw [show readMagic (68 :: 68 :: 82 :: 77 :: (u32le v ++ r)) = some (u32le v ++ r)
      from rfl]
    simp only []
    rw [readU32_u32le v hv r]
    simp only [if_neg hne]

/-- Witness for `parseBinaryProjectData_total`: a garbage buffer is
rejected, as is a version-2 buffer. -/
theorem parseBinaryProjectData_total_witness :
    (([0, 1, 2, 3] : List ℕ).take 4 ≠ [68, 68, 82, 77] ∧
      parseBinaryProjectData timeDec8 [0, 1, 2, 3] = none) ∧
    ((2:ℕ) < 2 ^ 32 ∧ (2:ℕ) ≠ 1 ∧
      parseBinaryProjectData timeDec8 (68 :: 68 :: 82 :: 77 :: (u32le 2 ++ [])) = none) :=
  ⟨⟨by decide, (parseBinaryProjectData_total timeDec8).2.1 [0, 1, 2, 3] (by decide)⟩,
   ⟨by norm_num, by norm_num,
    (parseBinaryProjectData_total timeDec8).2.2 2 [] (by norm_num) (by norm_num)⟩⟩

end Darkroom
